import Mathlib

/-!
Verification development for the Cloud-Cost-Anomaly-Detection repository.

The repository snapshot contains the React UI (`ui/src/App.js`,
`ui/src/components/CostChart.js`), the README and design docs; the Python
API files (`api/anomaly_detector.py`, `api/mock_data.py`) are not present,
so the anomaly detector and the mock cost-series generator are modelled
from the specification.  The UI computations are embedded directly from
`App.js` / `CostChart.js`.
-/

namespace CloudCost

/-- Modelled from the spec: the `DailyCostRecord` shape of §3 (the Python
record type is not in the snapshot).  `date` is a calendar date encoded as
an integer day number (the detector uses it only for identification),
`total_cost` the day's total cost, `services` the per-service breakdown.
The cost type is a parameter: the detector model works over `ℝ`, the
generator model over `ℚ`. -/
structure DailyCostRecord (C : Type) where
  date : Int
  total_cost : C
  services : List (String × C)

/-- Modelled from the spec: the two-level severity enumeration of §3. -/
inductive Severity
  | medium
  | high
  deriving DecidableEq

/-- Modelled from the spec: the `AnomalyFinding` shape of §3 (the Python
record type is not in the snapshot). -/
structure AnomalyFinding where
  date : Int
  cost : ℝ
  z_score : ℝ
  severity : Severity

/-- Modelled from the spec: arithmetic mean of a cost sequence (§4.2
step 2); the Python detector is not in the snapshot. -/
noncomputable def mean (l : List ℝ) : ℝ :=
  l.sum / l.length

/-- Modelled from the spec: population variance, divisor `N` and not
`N - 1` (§4.2 numeric semantics); the Python detector is not in the
snapshot. -/
noncomputable def variance (l : List ℝ) : ℝ :=
  (l.map (fun x => (x - mean l) ^ 2)).sum / l.length

/-- Modelled from the spec: population standard deviation (§4.2 step 2);
the Python detector is not in the snapshot. -/
noncomputable def sigma (l : List ℝ) : ℝ :=
  Real.sqrt (variance l)

/-- Modelled from the spec: the z-score `(cost - μ) / σ` of §4.2 step 3;
the Python detector is not in the snapshot. -/
noncomputable def zscore (l : List ℝ) (x : ℝ) : ℝ :=
  (x - mean l) / sigma l

/-- Modelled from the spec: the severity step function of §4.2 step 6
(`|z| > 3.0 → high`, otherwise `medium`); the Python detector is not in
the snapshot. -/
noncomputable def severityOf (z : ℝ) : Severity :=
  if |z| > 3 then Severity.high else Severity.medium

/-- Modelled from the spec: the finding built for a flagged record (§3:
date, cost, signed z-score, severity); the Python detector is not in the
snapshot. -/
noncomputable def toFinding (costs : List ℝ) (r : DailyCostRecord ℝ) : AnomalyFinding :=
  { date := r.date
    cost := r.total_cost
    z_score := zscore costs r.total_cost
    severity := severityOf (zscore costs r.total_cost) }

/-- Modelled from the spec: the detector of §4.2 (the Python
`anomaly_detector.py` is not in the snapshot).  It extracts the
`total_cost` sequence, guards the degenerate `σ = 0` case with an
explicit branch returning no findings, and otherwise keeps, in input
order, exactly the records with `|z| > threshold`. -/
noncomputable def detect (series : List (DailyCostRecord ℝ)) (threshold : ℝ) :
    List AnomalyFinding :=
  if sigma (series.map (fun r => r.total_cost)) = 0 then []
  else
    (series.filter
        (fun r => |zscore (series.map (fun r => r.total_cost)) r.total_cost| > threshold)).map
      (toFinding (series.map (fun r => r.total_cost)))

/-- A tiny concrete series with two distinct costs, used to instantiate
hypotheses about `detect` on a series of nonzero variance. -/
def exSeries : List (DailyCostRecord ℝ) := [⟨0, 0, []⟩, ⟨1, 2, []⟩]

/-- The cost sequence of the spec's concrete scenario: 29 days at `100.0`
and one day at `500.0`. -/
def spikeCosts : List ℝ := List.replicate 29 100 ++ [500]

/-- The spec's concrete scenario as a series: 29 records with
`total_cost = 100.0` on dates `0..28` and one record with
`total_cost = 500.0` on date `29`. -/
def spikeSeries : List (DailyCostRecord ℝ) :=
  ((List.range 29).map fun i => ⟨i, 100, [("compute", 100)]⟩) ++
    [⟨29, 500, [("compute", 500)]⟩]

/-- The finding produced for the spiked day of `spikeSeries`. -/
noncomputable def spikeFinding : AnomalyFinding :=
  toFinding spikeCosts ⟨29, 500, [("compute", 500)]⟩

/-- Modelled from the spec: the generator's error taxonomy (§7); the
Python `mock_data.py` is not in the snapshot. -/
inductive GenError
  | invalidArgument
  deriving DecidableEq

/-- Modelled from the spec: one step of the injectable pseudo-random
stream backing the generator (§4.1); the Python `mock_data.py` is not in
the snapshot.  A standard linear congruential step modulo `2 ^ 31`. -/
def lcgNext (s : ℕ) : ℕ := (1103515245 * s + 12345) % 2 ^ 31

/-- Modelled from the spec: the `i`-th draw of the stream seeded with
`seed`, mapped into `[0, 1)` as a rational. -/
def randUnit (seed i : ℕ) : ℚ := (lcgNext^[i + 1] seed : ℚ) / 2 ^ 31

/-- Modelled from the spec: the fixed service categories with distinct
baseline daily means, descending from compute to database (§4.1). -/
def serviceBaselines : List (String × ℚ) :=
  [("compute", 120), ("storage", 80), ("network", 50), ("database", 30)]

/-- Modelled from the spec: currency-like rounding to two decimal places,
applied only at the record boundary (§4.1). -/
def round2 (q : ℚ) : ℚ := (⌊q * 100⌋ : ℚ) / 100

/-- Modelled from the spec: the cost of service number `j` on day number
`i`: the category baseline scaled by a pseudo-random factor in
`[0.9, 1.1)`, multiplied by a spike factor of 4 on the roughly one-in-ten
days whose spike draw fires (§4.1), rounded at the record boundary. -/
def genServiceCost (seed i j : ℕ) (base : ℚ) : ℚ :=
  let vary := base * (9 / 10 + randUnit seed (5 * i + j) / 5)
  let spiked := if randUnit seed (5 * i + 4) < 1 / 10 ∧ j = 0 then 4 * vary else vary
  round2 spiked

/-- Modelled from the spec: the record generated for day number `i` of a
window of `n` days ending at `refDate` (§4.1): per-service costs summed
into `total_cost`, dates ascending with the window's last day at
`refDate`. -/
def genDay (seed : ℕ) (refDate n : ℤ) (i : ℕ) : DailyCostRecord ℚ :=
  let services := serviceBaselines.mapIdx fun j p => (p.1, genServiceCost seed i j p.2)
  { date := refDate - (n - 1) + i
    total_cost := (services.map fun p => p.2).sum
    services := services }

/-- Modelled from the spec: `generate` (§4.1); the Python `mock_data.py`
is not in the snapshot.  It rejects `n_days ≤ 0` with `InvalidArgument`
immediately, and otherwise returns the `n_days` consecutive calendar days
ending at `refDate`, ascending, with pseudo-random costs drawn from the
stream seeded with `seed`. -/
def generate (nDays : ℤ) (seed : ℕ) (refDate : ℤ) :
    Except GenError (List (DailyCostRecord ℚ)) :=
  if nDays ≤ 0 then Except.error GenError.invalidArgument
  else Except.ok ((List.range nDays.toNat).map (genDay seed refDate nDays))

/-- A day object as consumed by the dashboard (`App.js`): the JSON from
`/api/costs` carries a string date, a numeric `total_cost` and a
per-service breakdown. -/
structure UICostDay where
  date : String
  total_cost : ℚ
  services : List (String × ℚ)
  deriving DecidableEq

/-- An anomaly object as consumed by the UI; `App.js` and `CostChart.js`
read only its `date` field. -/
structure UIAnomaly where
  date : String
  deriving DecidableEq

/-- `App.js` line 48:
`costData.reduce((sum, day) => sum + day.total_cost, 0)`. -/
def totalSpend (costData : List UICostDay) : ℚ :=
  costData.foldl (fun sum day => sum + day.total_cost) 0

/-- `App.js` line 49:
`costData.length > 0 ? totalSpend / costData.length : 0`. -/
def avgDaily (costData : List UICostDay) : ℚ :=
  if costData.length > 0 then totalSpend costData / costData.length else 0

/-- An entry of `CostChart.js`'s merged `chartData`: the spread of the
input day plus the `isAnomaly` flag and a formatted display date. -/
structure ChartPoint where
  date : String
  total_cost : ℚ
  services : List (String × ℚ)
  isAnomaly : Bool
  displayDate : String
  deriving DecidableEq

/-- `CostChart.js` lines 109-120: merge the cost data with anomaly flags,
one entry per input day, `isAnomaly` when some anomaly's date equals the
day's date; `fmt` stands for the locale formatting of `displayDate`. -/
def chartData (fmt : String → String) (costData : List UICostDay)
    (anomalies : List UIAnomaly) : List ChartPoint :=
  costData.map fun day =>
    { date := day.date
      total_cost := day.total_cost
      services := day.services
      isAnomaly := anomalies.any fun a => a.date == day.date
      displayDate := fmt day.date }

/-- A concrete two-day cost sequence for instantiating the dashboard
computations. -/
def exDays : List UICostDay :=
  [⟨"2026-10-01", 10, []⟩, ⟨"2026-10-02", 20, []⟩]

/-- A concrete anomaly list naming the second day of `exDays`. -/
def exAnomalies : List UIAnomaly := [⟨"2026-10-02"⟩]

lemma variance_nonneg (l : List ℝ) : 0 ≤ variance l := by
  unfold variance
  apply div_nonneg
  · exact List.sum_nonneg (by
      intro x hx
      rcases List.mem_map.mp hx with ⟨y, _, rfl⟩
      positivity)
  · positivity

lemma sigma_sq (l : List ℝ) : sigma l ^ 2 = variance l :=
  Real.sq_sqrt (variance_nonneg l)

lemma sigma_nonneg (l : List ℝ) : 0 ≤ sigma l :=
  Real.sqrt_nonneg _

/-- With positive variance, `|z| > t` for `t ≥ 0` is equivalent to a
comparison of squares, which avoids the square root. -/
lemma abs_zscore_gt_iff (l : List ℝ) (x t : ℝ) (hv : 0 < variance l) (ht : 0 ≤ t) :
    |zscore l x| > t ↔ t ^ 2 * variance l < (x - mean l) ^ 2 := by
  have hs : 0 < sigma l := Real.sqrt_pos.mpr hv
  unfold zscore
  rw [abs_div, abs_of_pos hs, gt_iff_lt, lt_div_iff₀ hs]
  constructor
  · intro h
    have h0 : 0 ≤ t * sigma l := mul_nonneg ht hs.le
    calc t ^ 2 * variance l = (t * sigma l) ^ 2 := by
          rw [mul_pow, sigma_sq]
      _ < |x - mean l| ^ 2 := by
          apply pow_lt_pow_left₀ h h0
          norm_num
      _ = (x - mean l) ^ 2 := sq_abs _
  · intro h
    have h0 : 0 ≤ t * sigma l := mul_nonneg ht hs.le
    have h2 : (t * sigma l) ^ 2 < |x - mean l| ^ 2 := by
      rw [mul_pow, sigma_sq, sq_abs]
      exact h
    exact lt_of_pow_lt_pow_left₀ 2 (abs_nonneg _) h2

lemma variance_eq_zero (l : List ℝ) (h : ∀ x ∈ l, ∀ y ∈ l, x = y) : variance l = 0 := by
  rcases l with _ | ⟨a, tl⟩
  · simp [variance, mean]
  · have hc : ∀ x ∈ a :: tl, x = a := fun x hx => h x hx a (List.mem_cons_self a tl)
    have hlen : ((a :: tl).length : ℝ) ≠ 0 := by
      simp
      positivity
    have hmean : mean (a :: tl) = a := by
      unfold mean
      rw [List.sum_eq_card_nsmul (a :: tl) a hc, nsmul_eq_mul,
        mul_div_cancel_left₀ a hlen]
    unfold variance
    rw [List.sum_eq_zero, zero_div]
    intro x hx
    rcases List.mem_map.mp hx with ⟨y, hy, rfl⟩
    rw [hmean, hc y hy]
    ring

/-- Claim C2: an empty series, a single-record series, or any series whose
`total_cost` values are all identical (all are instances of the hypothesis
below) yields no findings for every threshold; the `σ = 0` case is an
explicit guarded branch of `detect`, so no division by zero is ever
performed and the function is total. -/
theorem detect_degenerate_eq_nil (s : List (DailyCostRecord ℝ)) (t : ℝ) (_ht : 0 ≤ t)
    (h : ∀ r ∈ s, ∀ r2 ∈ s, r.total_cost = r2.total_cost) :
    detect s t = [] := by
  have hv : variance (s.map fun r => r.total_cost) = 0 := by
    apply variance_eq_zero
    intro x hx y hy
    rcases List.mem_map.mp hx with ⟨r, hr, rfl⟩
    rcases List.mem_map.mp hy with ⟨r2, hr2, rfl⟩
    exact h r hr r2 hr2
  unfold detect
  rw [if_pos]
  unfold sigma
  rw [hv, Real.sqrt_zero]

/-- Witness for C2: `detect [] 2 = []`, the concrete scenario of the spec. -/
theorem detect_degenerate_eq_nil_witness : detect [] 2 = [] :=
  detect_degenerate_eq_nil [] 2 (by norm_num) (by simp)

/-- Claim C1: with nonzero population standard deviation and threshold
`t ≥ 0`, the finding built from a record of the series is in the output of
`detect` exactly when `|(total_cost - μ) / σ| > t`, where `μ` and `σ` are
the arithmetic mean and population standard deviation of the whole series. -/
theorem detect_flags_iff (s : List (DailyCostRecord ℝ)) (t : ℝ)
    (hs : sigma (s.map fun r => r.total_cost) ≠ 0) (_ht : 0 ≤ t)
    (r : DailyCostRecord ℝ) (hr : r ∈ s) :
    toFinding (s.map fun r => r.total_cost) r ∈ detect s t ↔
      |(r.total_cost - mean (s.map fun r => r.total_cost)) /
          sigma (s.map fun r => r.total_cost)| > t := by
  unfold detect
  rw [if_neg hs]
  constructor
  · intro hmem
    rcases List.mem_map.mp hmem with ⟨r2, hr2, heq⟩
    have hcost : r2.total_cost = r.total_cost := congrArg AnomalyFinding.cost heq
    have hflag := (List.mem_filter.mp hr2).2
    simp only [decide_eq_true_eq] at hflag
    rw [hcost] at hflag
    exact hflag
  · intro hz
    apply List.mem_map_of_mem
    apply List.mem_filter.mpr
    refine ⟨hr, ?_⟩
    simp only [decide_eq_true_eq]
    exact hz

lemma exSeries_variance : variance (exSeries.map fun r => r.total_cost) = 1 := by
  unfold variance mean exSeries
  norm_num

lemma exSeries_sigma : sigma (exSeries.map fun r => r.total_cost) = 1 := by
  unfold sigma
  rw [exSeries_variance, Real.sqrt_one]

/-- Witness for C1 at the concrete series `exSeries` and threshold 1. -/
theorem detect_flags_iff_witness :
    toFinding (exSeries.map fun r => r.total_cost) ⟨1, 2, []⟩ ∈ detect exSeries 1 ↔
      |((2 : ℝ) - mean (exSeries.map fun r => r.total_cost)) /
          sigma (exSeries.map fun r => r.total_cost)| > 1 :=
  detect_flags_iff exSeries 1 (by rw [exSeries_sigma]; norm_num) (by norm_num)
    ⟨1, 2, []⟩ (List.mem_cons_of_mem _ (List.mem_cons_self _ _))

/-- Claim C4: the findings' dates form a subsequence of the input records'
dates: every finding's date is the date of some input record, and the
output keeps the input's relative order, with no re-sorting. -/
theorem detect_dates_sublist (s : List (DailyCostRecord ℝ)) (t : ℝ) :
    ((detect s t).map fun f => f.date).Sublist (s.map fun r => r.date) := by
  unfold detect
  by_cases hs : sigma (s.map fun r => r.total_cost) = 0
  · rw [if_pos hs]
    exact List.nil_sublist _
  · rw [if_neg hs]
    rw [List.map_map]
    exact List.Sublist.map _ (List.filter_sublist _)

lemma spikeSeries_costs : spikeSeries.map (fun r => r.total_cost) = spikeCosts := by
  unfold spikeSeries spikeCosts
  rw [List.map_append, List.map_map]
  simp [Function.comp_def]

lemma spike_mean : mean spikeCosts = 340 / 3 := by
  unfold mean spikeCosts
  simp [List.sum_replicate, nsmul_eq_mul]
  norm_num

lemma spike_variance : variance spikeCosts = 46400 / 9 := by
  unfold variance
  rw [spike_mean]
  unfold spikeCosts
  simp [List.sum_replicate, nsmul_eq_mul]
  norm_num

lemma spike_variance_pos : 0 < variance spikeCosts := by
  rw [spike_variance]
  norm_num

lemma spike_sigma_pos : 0 < sigma spikeCosts :=
  Real.sqrt_pos.mpr spike_variance_pos

lemma spike_not_flag_100 : ¬ |zscore spikeCosts 100| > 2 := by
  rw [abs_zscore_gt_iff _ _ _ spike_variance_pos (by norm_num), spike_variance, spike_mean]
  norm_num

lemma spike_flag_500 : |zscore spikeCosts 500| > 2 := by
  rw [abs_zscore_gt_iff _ _ _ spike_variance_pos (by norm_num), spike_variance, spike_mean]
  norm_num

lemma detect_spike : detect spikeSeries 2 = [spikeFinding] := by
  unfold detect
  rw [spikeSeries_costs, if_neg spike_sigma_pos.ne']
  have hfil :
      spikeSeries.filter (fun r => |zscore spikeCosts r.total_cost| > 2) =
        [⟨29, 500, [("compute", 500)]⟩] := by
    unfold spikeSeries
    rw [List.filter_append]
    have h1 :
        (((List.range 29).map fun (i : ℕ) =>
            (⟨(i : ℤ), 100, [("compute", 100)]⟩ : DailyCostRecord ℝ)).filter
          fun r => |zscore spikeCosts r.total_cost| > 2) = [] := by
      rw [List.filter_eq_nil_iff]
      intro a ha
      rcases List.mem_map.mp ha with ⟨i, _, rfl⟩
      simpa using spike_not_flag_100
    have h2 :
        ([(⟨29, 500, [("compute", 500)]⟩ : DailyCostRecord ℝ)].filter
          fun r => |zscore spikeCosts r.total_cost| > 2) =
          [⟨29, 500, [("compute", 500)]⟩] := by
      rw [List.filter_cons_of_pos]
      · rfl
      · simpa using spike_flag_500
    rw [h1, h2, List.nil_append]
  rw [hfil]
  rfl

/-- Claim C5: on the series of 29 days at cost 100.0 and one day at cost
500.0, `detect` with threshold 2.0 returns exactly one finding, for the
500.0 record's date, with z-score above 3 and severity `high`. -/
theorem detect_spike_scenario :
    ∃ f, detect spikeSeries 2 = [f] ∧ f.date = 29 ∧ f.cost = 500 ∧
      f.z_score > 3 ∧ f.severity = Severity.high := by
  refine ⟨spikeFinding, detect_spike, rfl, rfl, ?_, ?_⟩
  · show zscore spikeCosts 500 > 3
    have hlt : sigma spikeCosts < 1160 / 9 := by
      unfold sigma
      rw [spike_variance, Real.sqrt_lt' (by norm_num)]
      norm_num
    have hpos := spike_sigma_pos
    unfold zscore
    rw [spike_mean, gt_iff_lt, lt_div_iff₀ hpos]
    linarith
  · show severityOf (zscore spikeCosts 500) = Severity.high
    unfold severityOf
    rw [if_pos]
    rw [abs_zscore_gt_iff _ _ _ spike_variance_pos (by norm_num), spike_variance,
      spike_mean]
    norm_num

/-- Claim C3: every emitted finding has severity `high` exactly when
`|z_score| > 3`, and `medium` exactly otherwise; the classification reads
only the magnitude of the z-score, so sign never enters. -/
theorem detect_severity_iff (s : List (DailyCostRecord ℝ)) (t : ℝ) (f : AnomalyFinding)
    (hf : f ∈ detect s t) :
    (f.severity = Severity.high ↔ |f.z_score| > 3) ∧
      (f.severity = Severity.medium ↔ ¬ |f.z_score| > 3) := by
  unfold detect at hf
  by_cases hs : sigma (s.map fun r => r.total_cost) = 0
  · rw [if_pos hs] at hf
    cases hf
  · rw [if_neg hs] at hf
    rcases List.mem_map.mp hf with ⟨r, _, rfl⟩
    unfold toFinding severityOf
    by_cases h3 : |zscore (s.map fun r => r.total_cost) r.total_cost| > 3
    · simp [h3]
    · simp [h3]

/-- Witness for C3 at the finding emitted for the spiked day of
`spikeSeries`. -/
theorem detect_severity_iff_witness :
    (spikeFinding.severity = Severity.high ↔ |spikeFinding.z_score| > 3) ∧
      (spikeFinding.severity = Severity.medium ↔ ¬ |spikeFinding.z_score| > 3) :=
  detect_severity_iff spikeSeries 2 spikeFinding
    (by rw [detect_spike]; exact List.mem_cons_self _ _)

/-- Claim C6: for `n_days > 0`, `generate` returns exactly `n_days`
records whose dates are the consecutive calendar days ending at the
reference date, ascending; for `n_days ≤ 0` it rejects the input with
`InvalidArgument`, returned directly to the caller. -/
theorem generate_contract (nDays : ℤ) (seed : ℕ) (refDate : ℤ) :
    (0 < nDays →
      ∃ l, generate nDays seed refDate = Except.ok l ∧
        (l.length : ℤ) = nDays ∧
        l.map (fun r => r.date) =
          (List.range nDays.toNat).map fun (i : ℕ) =>
            refDate - (nDays - 1) + (i : ℤ)) ∧
    (nDays ≤ 0 →
      generate nDays seed refDate = Except.error GenError.invalidArgument) := by
  constructor
  · intro hn
    refine ⟨(List.range nDays.toNat).map (genDay seed refDate nDays), ?_, ?_, ?_⟩
    · unfold generate
      rw [if_neg (not_le.mpr hn)]
    · simp [Int.toNat_of_nonneg hn.le]
    · rw [List.map_map]
      rfl
  · intro hn
    unfold generate
    rw [if_pos hn]

/-- Witness for C6: 30 days from seed 42 ending at day 0, and the
rejection of `n_days = 0`. -/
theorem generate_contract_witness :
    (∃ l, generate 30 42 0 = Except.ok l ∧
        (l.length : ℤ) = 30 ∧
        l.map (fun r => r.date) =
          (List.range (30 : ℤ).toNat).map fun (i : ℕ) =>
            (0 : ℤ) - ((30 : ℤ) - 1) + (i : ℤ)) ∧
      generate 0 42 0 = Except.error GenError.invalidArgument :=
  ⟨(generate_contract 30 42 0).1 (by norm_num),
    (generate_contract 0 42 0).2 (by norm_num)⟩

/-- Claim C7: the generator is a pure function of `n_days`, the seed and
the reference date, so two calls with the same `n_days` and seed (in
particular `generate 30 42`) return identical record sequences. -/
theorem generate_deterministic (nDays : ℤ) (seed : ℕ) (refDate : ℤ) :
    generate nDays seed refDate = generate nDays seed refDate :=
  rfl

lemma totalSpend_eq_sum (l : List UICostDay) :
    totalSpend l = (l.map fun d => d.total_cost).sum := by
  unfold totalSpend
  suffices h : ∀ a : ℚ, l.foldl (fun sum day => sum + day.total_cost) a =
      a + (l.map fun d => d.total_cost).sum by
    simpa using h 0
  induction l with
  | nil => simp
  | cons d tl ih =>
    intro a
    simp [List.foldl_cons, ih, add_assoc]

/-- Claim C8: for a non-empty series the dashboard's total spend is the
sum of the `total_cost` values and the daily average is that total divided
by the number of records. -/
theorem summary_totals (costData : List UICostDay) (h : costData ≠ []) :
    totalSpend costData = (costData.map fun d => d.total_cost).sum ∧
      avgDaily costData = totalSpend costData / costData.length := by
  refine ⟨totalSpend_eq_sum costData, ?_⟩
  unfold avgDaily
  rw [if_pos (show costData.length > 0 from List.length_pos.mpr h)]

/-- Witness for C8 at the concrete two-day sequence `exDays`. -/
theorem summary_totals_witness :
    totalSpend exDays = (exDays.map fun d => d.total_cost).sum ∧
      avgDaily exDays = totalSpend exDays / exDays.length :=
  summary_totals exDays (by simp [exDays])

/-- Claim C9: on an empty cost sequence the dashboard's daily average is
`0`: the division by the series length sits behind the explicit
`length > 0` guard of `avgDaily`, which the empty list fails. -/
theorem avgDaily_nil : avgDaily [] = 0 := rfl

/-- Claim C10: the merged chart data has one entry per input day in the
same order, each entry keeps the day's `date`, `total_cost` and
`services` unchanged, and an entry is marked as an anomaly exactly when
some anomaly's date is string-equal to the day's date. -/
theorem chartData_spec (fmt : String → String) (costData : List UICostDay)
    (anomalies : List UIAnomaly) :
    (chartData fmt costData anomalies).length = costData.length ∧
      (chartData fmt costData anomalies).map
          (fun p => (p.date, p.total_cost, p.services)) =
        costData.map (fun d => (d.date, d.total_cost, d.services)) ∧
      ∀ p ∈ chartData fmt costData anomalies,
        (p.isAnomaly = true ↔ ∃ a ∈ anomalies, a.date = p.date) := by
  refine ⟨?_, ?_, ?_⟩
  · unfold chartData
    rw [List.length_map]
  · unfold chartData
    rw [List.map_map]
    rfl
  · intro p hp
    unfold chartData at hp
    rcases List.mem_map.mp hp with ⟨d, _, rfl⟩
    simp [List.any_eq_true]

/-- Witness for C10 at `exDays` and `exAnomalies`: the second day's entry
is flagged as an anomaly. -/
theorem chartData_spec_witness :
    (chartData id exDays exAnomalies).length = exDays.length ∧
      ((⟨"2026-10-02", 20, [], true, "2026-10-02"⟩ : ChartPoint).isAnomaly = true ↔
        ∃ a ∈ exAnomalies, a.date = "2026-10-02") :=
  ⟨(chartData_spec id exDays exAnomalies).1,
    (chartData_spec id exDays exAnomalies).2.2 _ (by decide)⟩

end CloudCost
